import Mathlib

/-!
Shallow embedding of the Stack layout engine (stack.go) and the UI dispatch
bridge (uitask_unix.go) of the akavel/ui repository, together with theorems
settling the frozen claims about them.

Go machine integers are modelled as unbounded Int: none of the layout claims
concern overflow behaviour.  Go integer division truncates toward zero, which
is Int.tdiv.
-/

namespace Ui

/-- Modelled from the spec: the sizing context (sysSizeData) carries the
current layout level's margins (xmargin, ymargin) and inter-control padding
(xpadding, ypadding).  The struct itself is defined outside the excerpted
sources; stack.go reads and writes exactly these four fields. -/
structure sysSizeData where
  xmargin : Int
  ymargin : Int
  xpadding : Int
  ypadding : Int
deriving DecidableEq

/-- Modelled from the spec: an allocation assigns a rectangle to a control and
carries an optional neighbor reference used for adjacency hints.  owner is the
id of the control that produced the allocation; neighbor stores the id of the
Control written by Stack.allocate's neighboring pass (in the Go source the
field holds the Control value itself; ids stand in for object identity). -/
structure allocation where
  x : Int
  y : Int
  width : Int
  height : Int
  owner : Nat
  neighbor : Option Nat
deriving DecidableEq

/-- A child control as Stack sees it (the Control capability of the spec):
an id used for neighbor references, a preferredSize query, an allocate
operation returning the flattened leaf allocations, and the outcome of make
(none = success, some e = failure with message e).  Child controls do not
mutate the sizing context: leaf widgets never touch it and a nested Stack
only re-zeroes margins its parent already zeroed. -/
structure Ctrl where
  id : Nat
  preferredSize : sysSizeData → Int × Int
  allocate : Int → Int → Int → Int → sysSizeData → List allocation
  makeRes : Option String

/-- type orientation bool, from stack.go. -/
abbrev orientation := Bool

/-- horizontal orientation = false, from stack.go. -/
def horizontal : orientation := false

/-- vertical orientation = true, from stack.go. -/
def vertical : orientation := true

/-- The Stack record from stack.go: created latch, orientation, the parallel
controls/stretchy sequences, and the width/height working caches that
allocate overwrites on every call. -/
structure Stack where
  created : Bool
  orientation : orientation
  controls : List Ctrl
  stretchy : List Bool
  width : List Int
  height : List Int

/-- newStack from stack.go: stretchy/width/height sized to len(controls),
all flags false, caches zeroed, created false. -/
def newStack (o : orientation) (controls : List Ctrl) : Stack :=
  { created := false
    orientation := o
    controls := controls
    stretchy := List.replicate controls.length false
    width := List.replicate controls.length 0
    height := List.replicate controls.length 0 }

/-- NewHorizontalStack from stack.go. -/
def NewHorizontalStack (controls : List Ctrl) : Stack :=
  newStack horizontal controls

/-- NewVerticalStack from stack.go. -/
def NewVerticalStack (controls : List Ctrl) : Stack :=
  newStack vertical controls

/-- The shared Space value from stack.go: var space Control = newStack(horizontal). -/
def space : Stack := newStack horizontal []

/-- Stack.SetStretchy from stack.go, with Go panics rendered as Except.error.
If created, it panics.  The explicit range check rejects index < 0 and
index > len(stretchy); an index equal to len(stretchy) passes the explicit
check, but the slice store s.stretchy[index] = true then fails Go's runtime
bounds check and panics anyway. -/
def Stack.SetStretchy (s : Stack) (index : Int) : Except String Stack :=
  if s.created then
    .error "call to Stack.SetStretchy() after Stack has been created"
  else if index < 0 || index > (s.stretchy.length : Int) then
    .error ("index " ++ toString index ++ " out of range in Stack.SetStretchy()")
  else if index.toNat < s.stretchy.length then
    .ok { s with stretchy := s.stretchy.set index.toNat true }
  else
    .error "runtime error: index out of range"

/-- The child loop of Stack.make from stack.go, started at index i: returns
the indices of the children whose make was invoked (in invocation order) and
the error of the first failing child, if any.  The loop stops at the first
failure and wraps its message with the failing index. -/
def makeLoop : List Ctrl → Nat → List Nat × Option String
  | [], _ => ([], none)
  | c :: cs, i =>
    match c.makeRes with
    | some e => ([i], some ("error adding control " ++ toString i ++ " to Stack: " ++ e))
    | none =>
      let r := makeLoop cs (i + 1)
      (i :: r.1, r.2)

/-- Stack.make from stack.go: runs make on every child in order; on the first
failure it returns the wrapped error and leaves the Stack unchanged (no
rollback of already-made children, created stays as it was); on success it
sets created = true.  The first component records which children had make
invoked, in order. -/
def Stack.make (s : Stack) : List Nat × Stack × Option String :=
  let r := makeLoop s.controls 0
  match r.2 with
  | some e => (r.1, s, some e)
  | none => (r.1, { s with created := true }, none)

/-- A leaf test control: fixed preferred size (w, h); allocate returns one
allocation covering exactly the rectangle it was offered; make succeeds. -/
def mkCtrl (i : Nat) (w h : Int) : Ctrl :=
  { id := i
    preferredSize := fun _ => (w, h)
    allocate := fun x y w' h' _ => [⟨x, y, w', h', i, none⟩]
    makeRes := none }

/-- A leaf test control whose make fails with message e. -/
def mkFailCtrl (i : Nat) (e : String) : Ctrl :=
  { id := i
    preferredSize := fun _ => (0, 0)
    allocate := fun _ _ _ _ _ => []
    makeRes := some e }

theorem makeLoop_ok (cs : List Ctrl) (i : Nat)
    (h : ∀ c ∈ cs, c.makeRes = none) :
    makeLoop cs i = ((List.range cs.length).map (i + ·), none) := by
  induction cs generalizing i with
  | nil => simp [makeLoop]
  | cons c cs ih =>
    have hc : c.makeRes = none := h c (by simp)
    have hrest : ∀ c' ∈ cs, c'.makeRes = none := fun c' hm => h c' (by simp [hm])
    simp only [makeLoop, hc]
    rw [ih (i + 1) hrest]
    simp [List.range_succ_eq_map, List.map_map, Function.comp]
    intro a _
    omega

theorem makeLoop_fail (cs : List Ctrl) (i j : Nat) (c : Ctrl) (e : String)
    (hj : cs[j]? = some c) (he : c.makeRes = some e)
    (hpre : ∀ k c', k < j → cs[k]? = some c' → c'.makeRes = none) :
    makeLoop cs i = ((List.range (j + 1)).map (i + ·),
      some ("error adding control " ++ toString (i + j) ++ " to Stack: " ++ e)) := by
  induction cs generalizing i j with
  | nil => simp at hj
  | cons c0 cs ih =>
    cases j with
    | zero =>
      simp at hj
      subst hj
      simp [makeLoop, he]
      rfl
    | succ j' =>
      have hc0 : c0.makeRes = none := hpre 0 c0 (by omega) (by simp)
      have hj' : cs[j']? = some c := by simpa using hj
      have hpre' : ∀ k c', k < j' → cs[k]? = some c' → c'.makeRes = none := by
        intro k c' hk hkc
        exact hpre (k + 1) c' (by omega) (by simpa using hkc)
      simp only [makeLoop, hc0]
      rw [ih (i + 1) j' hj' hpre']
      have hidx : i + 1 + j' = i + (j' + 1) := by omega
      rw [hidx]
      simp [List.range_succ_eq_map, List.map_map, Function.comp]
      intro a _
      omega

/-- C5: Stack.make calls make on every child in order; on the first child
whose make fails it returns an error identifying that child's index, performs
no rollback (the Stack, in particular created, is left unchanged); only when
every child's make succeeds does it set created = true and return no error. -/
theorem C5_make_first_failure_or_success (s : Stack) :
    (∀ (j : Nat) (c : Ctrl) (e : String),
      s.controls[j]? = some c → c.makeRes = some e →
      (∀ (k : Nat) (c' : Ctrl), k < j → s.controls[k]? = some c' → c'.makeRes = none) →
      s.make = (List.range (j + 1), s,
        some ("error adding control " ++ toString j ++ " to Stack: " ++ e))) ∧
    ((∀ c ∈ s.controls, c.makeRes = none) →
      s.make = (List.range s.controls.length, { s with created := true }, none)) := by
  constructor
  · intro j c e hj he hpre
    have h := makeLoop_fail s.controls 0 j c e hj he hpre
    simp only [Stack.make, h]
    simp
  · intro h
    have h2 := makeLoop_ok s.controls 0 h
    simp only [Stack.make, h2]
    simp

/-- Witness for C5 at concrete inputs: a Stack whose second child's make
fails stops after invoking children 0 and 1 and reports index 1 leaving
the Stack unchanged; a Stack whose children all succeed sets created. -/
theorem C5_make_witness :
    (newStack horizontal [mkCtrl 1 10 5, mkFailCtrl 2 "boom", mkCtrl 3 30 5]).make
      = (List.range 2, newStack horizontal [mkCtrl 1 10 5, mkFailCtrl 2 "boom", mkCtrl 3 30 5],
          some "error adding control 1 to Stack: boom") ∧
    (newStack horizontal [mkCtrl 1 10 5]).make
      = (List.range 1,
          { newStack horizontal [mkCtrl 1 10 5] with created := true }, none) := by
  constructor
  · have h := (C5_make_first_failure_or_success
      (newStack horizontal [mkCtrl 1 10 5, mkFailCtrl 2 "boom", mkCtrl 3 30 5])).1
      1 (mkFailCtrl 2 "boom") "boom" rfl rfl ?_
    · exact h
    · intro k c' hk hkc
      have hk0 : k = 0 := by omega
      subst hk0
      simp [newStack] at hkc
      subst hkc
      rfl
  · have h := (C5_make_first_failure_or_success (newStack horizontal [mkCtrl 1 10 5])).2 ?_
    · simpa [newStack] using h
    · intro c hc
      simp [newStack] at hc
      subst hc
      rfl

/-- C4: SetStretchy always panics when called with index == len(controls)
(the explicit check uses a strict bound, but the slice store's runtime bounds
check still fires) or with a negative index, and always panics once created
is true, even in range; called before realization with index in
[0, len(controls)) it succeeds and sets the flag. -/
theorem C4_setStretchy_bounds_and_latch (s : Stack) (i : Int)
    (hlen : s.stretchy.length = s.controls.length) :
    (s.created = true → ∃ e, s.SetStretchy i = .error e) ∧
    (i = (s.controls.length : Int) → ∃ e, s.SetStretchy i = .error e) ∧
    (i < 0 → ∃ e, s.SetStretchy i = .error e) ∧
    (s.created = false → 0 ≤ i → i < (s.controls.length : Int) →
      s.SetStretchy i = .ok { s with stretchy := s.stretchy.set i.toNat true } ∧
      (s.stretchy.set i.toNat true)[i.toNat]? = some true) := by
  refine ⟨?_, ?_, ?_, ?_⟩
  · intro hc
    exact ⟨"call to Stack.SetStretchy() after Stack has been created",
      by simp [Stack.SetStretchy, hc]⟩
  · intro hi
    by_cases hc : s.created
    · exact ⟨"call to Stack.SetStretchy() after Stack has been created",
        by simp [Stack.SetStretchy, hc]⟩
    · refine ⟨"runtime error: index out of range", ?_⟩
      have h1 : ¬ (i < 0 || i > (s.stretchy.length : Int)) = true := by
        simp only [hlen]
        simp [hi]
      have h2 : ¬ i.toNat < s.stretchy.length := by
        rw [hlen, hi]
        simp
      simp [Stack.SetStretchy, hc, h1, h2]
  · intro hi
    by_cases hc : s.created
    · exact ⟨"call to Stack.SetStretchy() after Stack has been created",
        by simp [Stack.SetStretchy, hc]⟩
    · refine ⟨"index " ++ toString i ++ " out of range in Stack.SetStretchy()", ?_⟩
      have h1 : (i < 0 || i > (s.stretchy.length : Int)) = true := by
        simp [hi]
      simp [Stack.SetStretchy, hc, h1]
  · intro hc h0 hup
    have h1 : ¬ (i < 0 || i > (s.stretchy.length : Int)) = true := by
      simp only [hlen]
      simp
      omega
    have h2 : i.toNat < s.stretchy.length := by
      rw [hlen]
      omega
    constructor
    · simp [Stack.SetStretchy, hc, h1, h2]
    · rw [List.getElem?_set_self h2]

/-- Witness for C4 at concrete inputs: on a fresh one-control Stack, index 1
(= len) and index -1 panic; after creation index 0 panics; before creation
index 0 succeeds and sets the flag. -/
theorem C4_setStretchy_witness :
    (∃ e, (newStack horizontal [mkCtrl 1 10 5]).SetStretchy 1 = .error e) ∧
    (∃ e, (newStack horizontal [mkCtrl 1 10 5]).SetStretchy (-1) = .error e) ∧
    (∃ e, { newStack horizontal [mkCtrl 1 10 5] with created := true }.SetStretchy 0 = .error e) ∧
    ((newStack horizontal [mkCtrl 1 10 5]).SetStretchy 0
      = .ok { newStack horizontal [mkCtrl 1 10 5] with
                stretchy := (newStack horizontal [mkCtrl 1 10 5]).stretchy.set 0 true }) := by
  refine ⟨?_, ?_, ?_, ?_⟩
  · exact (C4_setStretchy_bounds_and_latch (newStack horizontal [mkCtrl 1 10 5]) 1
      (by simp [newStack])).2.1 (by simp [newStack])
  · exact (C4_setStretchy_bounds_and_latch (newStack horizontal [mkCtrl 1 10 5]) (-1)
      (by simp [newStack])).2.2.1 (by decide)
  · exact (C4_setStretchy_bounds_and_latch
      { newStack horizontal [mkCtrl 1 10 5] with created := true } 0
      (by simp [newStack])).1 rfl
  · exact ((C4_setStretchy_bounds_and_latch (newStack horizontal [mkCtrl 1 10 5]) 0
      (by simp [newStack])).2.2.2 rfl (by decide) (by simp [newStack])).1

/-- Output of pass 1 of Stack.allocate (stack.go): the width/height caches
after the pass (nonstretchy entries written, stretchy entries untouched),
the primary-axis extents consumed by nonstretchy controls (cw horizontally,
ch vertically: the amounts subtracted from stretchywid / stretchyht), and the
count of stretchy controls. -/
structure Pass1Out where
  ws : List Int
  hs : List Int
  cw : Int
  ch : Int
  n : Nat

/-- Pass 1 of Stack.allocate from stack.go, as recursion over the parallel
controls / stretchy / width-cache / height-cache sequences (the Go loop is
for i, c := range s.controls).  Stretchy controls are only counted; each
nonstretchy control gets its preferred primary-axis extent and the full
cross-axis extent (fullW or fullH, the inset rectangle), and its preferred
primary-axis extent is accumulated into the consumed total. -/
def pass1 (o : orientation) (d : sysSizeData) (fullW fullH : Int) :
    List Ctrl → List Bool → List Int → List Int → Pass1Out
  | c :: cs, st :: sts, w0 :: ws0, h0 :: hs0 =>
    let r := pass1 o d fullW fullH cs sts ws0 hs0
    if st then
      { r with ws := w0 :: r.ws, hs := h0 :: r.hs, n := r.n + 1 }
    else
      let p := c.preferredSize d
      if o = horizontal then
        { ws := p.1 :: r.ws, hs := fullH :: r.hs, cw := r.cw + p.1, ch := r.ch, n := r.n }
      else
        { ws := fullW :: r.ws, hs := p.2 :: r.hs, cw := r.cw, ch := r.ch + p.2, n := r.n }
  | _, _, _, _ => { ws := [], hs := [], cw := 0, ch := 0, n := 0 }

/-- Pass 2 of Stack.allocate from stack.go: overwrite the cache entries of
every stretchy control with the shared stretchy extents (sw, sh). -/
def pass2 (sw sh : Int) : List Bool → List Int → List Int → List Int × List Int
  | st :: sts, w :: ws, h :: hs =>
    let r := pass2 sw sh sts ws hs
    if st then (sw :: r.1, sh :: r.2) else (w :: r.1, h :: r.2)
  | _, _, _ => ([], [])

/-- The pending block of the neighboring logic of Stack.allocate: the Go
code keeps current = first allocation of the last child that produced any,
whose neighbor field is assigned when the next child is processed.  The
pending block (head = current, plus the rest of that child's allocations)
is emitted once the neighbor is known. -/
def flushPend (pend : Option (allocation × List allocation)) (cid : Nat) :
    List allocation :=
  match pend with
  | none => []
  | some (a, rest) => { a with neighbor := some cid } :: rest

/-- Emit the pending block at the end of the placement loop, neighbor
left as the child produced it. -/
def finalPend (pend : Option (allocation × List allocation)) : List allocation :=
  match pend with
  | none => []
  | some (a, rest) => a :: rest

/-- Pass 3 of Stack.allocate from stack.go: walk the controls with their
resolved widths/heights, allocate each at the cursor, advance the cursor on
the primary axis by extent plus one padding unit, and (horizontal only) link
the previous child's first allocation to the current control; a child with
no allocations resets the tracked allocation (current = nil in the Go code). -/
def place (o : orientation) (d : sysSizeData) :
    List Ctrl → List Int → List Int → Int → Int →
    List allocation → Option (allocation × List allocation) → List allocation
  | c :: cs, w :: ws, h :: hs, x, y, done, pend =>
    let as := c.allocate x y w h d
    if o = horizontal then
      place o d cs ws hs (x + w + d.xpadding) y (done ++ flushPend pend c.id)
        (match as with
         | [] => none
         | a :: rest => some (a, rest))
    else
      place o d cs ws hs x (y + h + d.ypadding) (done ++ as) pend
  | _, _, _, _, _, done, pend => done ++ finalPend pend

/-- The result of Stack.allocate: the produced allocations, the Stack with
its width/height caches as the call leaves them, and the sizing context as
the call leaves it (margins zeroed unless the Stack is empty). -/
structure AllocResult where
  allocs : List allocation
  stack : Stack
  ctx : sysSizeData

/-- Step 0 of Stack.allocate from stack.go, primary axis width: inset the
offered width by twice the x margin and, for a horizontal Stack, by the
(N-1)*xpadding reservation for inter-control gaps. -/
def insetW (s : Stack) (d : sysSizeData) (width : Int) : Int :=
  if s.orientation = horizontal then
    width - d.xmargin * 2 - ((s.controls.length : Int) - 1) * d.xpadding
  else
    width - d.xmargin * 2

/-- Step 0 of Stack.allocate from stack.go, height: inset by twice the y
margin and, for a vertical Stack, by the (N-1)*ypadding reservation. -/
def insetH (s : Stack) (d : sysSizeData) (height : Int) : Int :=
  if s.orientation = horizontal then
    height - d.ymargin * 2
  else
    height - d.ymargin * 2 - ((s.controls.length : Int) - 1) * d.ypadding

/-- Passes 1 and 2 of Stack.allocate from stack.go over the inset rectangle
(w3, h3): run pass 1 on the Stack's caches, divide the remaining primary
extent by the stretchy count when it is nonzero (Go integer division
truncates toward zero: Int.tdiv), and run pass 2; the result is the pair of
resolved width/height caches. -/
def stackWH (s : Stack) (d2 : sysSizeData) (w3 h3 : Int) : List Int × List Int :=
  let r := pass1 s.orientation d2 w3 h3 s.controls s.stretchy s.width s.height
  let sw0 := w3 - r.cw
  let sh0 := h3 - r.ch
  let sw := if r.n ≠ 0 ∧ s.orientation = horizontal then sw0.tdiv (r.n : Int) else sw0
  let sh := if r.n ≠ 0 ∧ ¬ s.orientation = horizontal then sh0.tdiv (r.n : Int) else sh0
  pass2 sw sh s.stretchy r.ws r.hs

/-- Stack.allocate from stack.go: return immediately when there are no
controls; otherwise steal the margins from the sizing context (zero them for
the children), inset the offered rectangle (insetW, insetH), resolve every
control's extents (stackWH: passes 1 and 2), and place the controls starting
at the margin-shifted origin. -/
def Stack.allocate (s : Stack) (x y width height : Int) (d : sysSizeData) :
    AllocResult :=
  if s.controls.length = 0 then
    { allocs := [], stack := s, ctx := d }
  else
    let d2 : sysSizeData := { d with xmargin := 0, ymargin := 0 }
    let wh := stackWH s d2 (insetW s d width) (insetH s d height)
    { allocs := place s.orientation d2 s.controls wh.1 wh.2
        (x + d.xmargin) (y + d.ymargin) [] none
      stack := { s with width := wh.1, height := wh.2 }
      ctx := d2 }

/-- The accumulator of the loop in Stack.preferredSize from stack.go:
running primary/cross extents, stretchy count, and the running maxima of the
stretchy controls' preferred extents. -/
structure PrefAcc where
  width : Int
  height : Int
  n : Nat
  msw : Int
  msh : Int

/-- The loop of Stack.preferredSize from stack.go: every stretchy control is
counted and folded into the stretchy maxima; on the primary axis nonstretchy
controls add their preferred extent; on the cross axis every control is
folded into the running maximum. -/
def prefLoop (o : orientation) (d : sysSizeData) :
    List Ctrl → List Bool → PrefAcc → PrefAcc
  | c :: cs, st :: sts, acc =>
    let p := c.preferredSize d
    prefLoop o d cs sts
      { width := if o = horizontal then (if st then acc.width else acc.width + p.1)
          else max acc.width p.1
        height := if o = horizontal then max acc.height p.2
          else (if st then acc.height else acc.height + p.2)
        n := if st then acc.n + 1 else acc.n
        msw := if st then max acc.msw p.1 else acc.msw
        msh := if st then max acc.msh p.2 else acc.msh }
  | _, _, acc => acc

/-- Stack.preferredSize from stack.go: (0,0) for an empty Stack; otherwise
the primary axis starts from the (N-1)-paddings reservation and finally adds
nStretchy times the stretchy maximum, the cross axis is the running maximum
(Go starts it from the zero value 0). -/
def Stack.preferredSize (s : Stack) (d : sysSizeData) : Int × Int :=
  if s.controls.length = 0 then (0, 0)
  else
    let w0 : Int := if s.orientation = horizontal then
        ((s.controls.length : Int) - 1) * d.xpadding else 0
    let h0 : Int := if s.orientation = horizontal then 0 else
        ((s.controls.length : Int) - 1) * d.ypadding
    let a := prefLoop s.orientation d s.controls s.stretchy
      { width := w0, height := h0, n := 0, msw := 0, msh := 0 }
    if s.orientation = horizontal then (a.width + (a.n : Int) * a.msw, a.height)
    else (a.width, a.height + (a.n : Int) * a.msh)

/-- The shared space value wrapped as a child Control: preferredSize and
allocate delegate to the zero-control Stack, make succeeds. -/
def spaceCtrl (i : Nat) : Ctrl :=
  { id := i
    preferredSize := fun d => space.preferredSize d
    allocate := fun x y w h d => (space.allocate x y w h d).allocs
    makeRes := none }

/-- C7: a Stack with zero controls (the shared Space value in particular)
returns (0, 0) from preferredSize and an empty allocation list from
allocate, for every offered rectangle, leaving the Stack and the sizing
context (margins included) entirely unchanged. -/
theorem C7_empty_stack_noop (s : Stack) (x y w h : Int) (d : sysSizeData)
    (he : s.controls = []) :
    s.preferredSize d = (0, 0) ∧
    s.allocate x y w h d = { allocs := [], stack := s, ctx := d } := by
  constructor
  · simp [Stack.preferredSize, he]
  · simp [Stack.allocate, he]

/-- Witness for C7 at concrete inputs: the shared space value, offered the
rectangle (3, 4, 50, 60) with nonzero margins and paddings. -/
theorem C7_empty_stack_witness :
    space.preferredSize ⟨5, 6, 7, 8⟩ = (0, 0) ∧
    space.allocate 3 4 50 60 ⟨5, 6, 7, 8⟩
      = { allocs := [], stack := space, ctx := ⟨5, 6, 7, 8⟩ } :=
  C7_empty_stack_noop space 3 4 50 60 ⟨5, 6, 7, 8⟩ rfl

/-- A two-control horizontal Stack, the second control stretchy, used to
witness the stretchy division: nonstretchy preferred width 30. -/
def stackC1 : Stack :=
  { created := false, orientation := horizontal
    controls := [mkCtrl 1 30 5, mkCtrl 2 0 5], stretchy := [false, true]
    width := [0, 0], height := [0, 0] }

/-- Sum of the preferred primary-axis widths of the nonstretchy controls of
a zipped controls/stretchy sequence. -/
def sumNonStretchyW (d : sysSizeData) (l : List (Ctrl × Bool)) : Int :=
  l.foldr (fun p r => if p.2 then r else (p.1.preferredSize d).1 + r) 0

/-- Sum of the preferred heights of the nonstretchy controls of a zipped
controls/stretchy sequence. -/
def sumNonStretchyH (d : sysSizeData) (l : List (Ctrl × Bool)) : Int :=
  l.foldr (fun p r => if p.2 then r else (p.1.preferredSize d).2 + r) 0

/-- Number of stretchy flags set. -/
def countStretchy (sts : List Bool) : Nat :=
  sts.foldr (fun b r => if b then r + 1 else r) 0

theorem pass1_cw (o : orientation) (d : sysSizeData) (fullW fullH : Int) :
    ∀ (cs : List Ctrl) (sts : List Bool) (ws hs : List Int),
    sts.length = cs.length → ws.length = cs.length → hs.length = cs.length →
    (pass1 o d fullW fullH cs sts ws hs).cw
      = (if o = horizontal then sumNonStretchyW d (cs.zip sts) else 0) ∧
    (pass1 o d fullW fullH cs sts ws hs).ch
      = (if o = horizontal then 0 else sumNonStretchyH d (cs.zip sts)) ∧
    (pass1 o d fullW fullH cs sts ws hs).n = countStretchy sts ∧
    (pass1 o d fullW fullH cs sts ws hs).ws.length = cs.length ∧
    (pass1 o d fullW fullH cs sts ws hs).hs.length = cs.length := by
  intro cs
  induction cs with
  | nil =>
    intro sts ws hs hsts hws hhs
    simp at hsts hws hhs
    simp [pass1, hsts, sumNonStretchyW, sumNonStretchyH, countStretchy]
  | cons c cs ih =>
    intro sts ws hs hsts hws hhs
    match sts, ws, hs with
    | st :: sts, w0 :: ws, h0 :: hs =>
      simp at hsts hws hhs
      have := ih sts ws hs hsts hws hhs
      by_cases hst : st = true
      · subst hst
        simp [pass1, sumNonStretchyW, sumNonStretchyH, countStretchy] at this ⊢
        refine ⟨this.1, this.2.1, ?_, this.2.2.2⟩
        by_cases hz : o = horizontal <;> simp_all [countStretchy]
      · have hst' : st = false := by simpa using hst
        subst hst'
        by_cases hz : o = horizontal
        · simp [pass1, hz, sumNonStretchyW, sumNonStretchyH, countStretchy] at this ⊢
          exact ⟨by omega, this.2.1, this.2.2⟩
        · simp [pass1, hz, sumNonStretchyW, sumNonStretchyH, countStretchy] at this ⊢
          exact ⟨this.1, by omega, this.2.2⟩

theorem pass2_length (sw sh : Int) :
    ∀ (sts : List Bool) (ws hs : List Int),
    ws.length = sts.length → hs.length = sts.length →
    (pass2 sw sh sts ws hs).1.length = sts.length ∧
    (pass2 sw sh sts ws hs).2.length = sts.length := by
  intro sts
  induction sts with
  | nil =>
    intro ws hs hws hhs
    simp at hws hhs
    simp [pass2, hws, hhs]
  | cons st sts ih =>
    intro ws hs hws hhs
    match ws, hs with
    | w :: ws, h :: hs =>
      simp at hws hhs
      have := ih ws hs hws hhs
      by_cases hst : st = true <;> simp_all [pass2]

theorem pass2_get_stretchy (sw sh : Int) :
    ∀ (sts : List Bool) (ws hs : List Int) (i : Nat),
    ws.length = sts.length → hs.length = sts.length → sts[i]? = some true →
    (pass2 sw sh sts ws hs).1[i]? = some sw ∧
    (pass2 sw sh sts ws hs).2[i]? = some sh := by
  intro sts
  induction sts with
  | nil => intro ws hs i _ _ hi; simp at hi
  | cons st sts ih =>
    intro ws hs i hws hhs hi
    match ws, hs with
    | w :: ws, h :: hs =>
      simp at hws hhs
      cases i with
      | zero =>
        simp at hi
        subst hi
        simp [pass2]
      | succ i =>
        simp at hi
        have := ih ws hs i hws hhs hi
        by_cases hst : st = true <;> simp_all [pass2]

/-- C1: in Stack.allocate with at least one stretchy control, after insetting
the offered rectangle by twice the margin per axis and reserving
(N-1)*padding on the primary axis, the primary-axis extent left after
subtracting every nonstretchy control's preferred primary-axis extent is
divided (truncating integer division) by the number of stretchy controls,
and every stretchy control receives exactly that quotient as its primary
extent and the full cross-axis extent — for a horizontal Stack the quotient
as its width and the inset height, for a vertical Stack the quotient as its
height and the inset width; in particular a horizontal Stack of two
controls, the second stretchy, with margins and padding zero and nonstretchy
preferred width P, gives the stretchy control width W - P. -/
theorem C1_stretchy_division :
    (∀ (s : Stack) (x y W H : Int) (d : sysSizeData) (i : Nat),
      s.orientation = horizontal →
      s.stretchy.length = s.controls.length →
      s.width.length = s.controls.length →
      s.height.length = s.controls.length →
      s.stretchy[i]? = some true →
      countStretchy s.stretchy ≠ 0 →
      ((s.allocate x y W H d).stack.width)[i]?
        = some ((W - d.xmargin * 2 - ((s.controls.length : Int) - 1) * d.xpadding
            - sumNonStretchyW { d with xmargin := 0, ymargin := 0 }
                (s.controls.zip s.stretchy)).tdiv (countStretchy s.stretchy : Int)) ∧
      ((s.allocate x y W H d).stack.height)[i]? = some (H - d.ymargin * 2)) ∧
    (∀ (s : Stack) (x y W H : Int) (d : sysSizeData) (i : Nat),
      s.orientation = vertical →
      s.stretchy.length = s.controls.length →
      s.width.length = s.controls.length →
      s.height.length = s.controls.length →
      s.stretchy[i]? = some true →
      countStretchy s.stretchy ≠ 0 →
      ((s.allocate x y W H d).stack.width)[i]? = some (W - d.xmargin * 2) ∧
      ((s.allocate x y W H d).stack.height)[i]?
        = some ((H - d.ymargin * 2 - ((s.controls.length : Int) - 1) * d.ypadding
            - sumNonStretchyH { d with xmargin := 0, ymargin := 0 }
                (s.controls.zip s.stretchy)).tdiv (countStretchy s.stretchy : Int))) ∧
    (∀ (W P H : Int),
      (({ created := false, orientation := horizontal,
          controls := [mkCtrl 1 P 5, mkCtrl 2 0 5], stretchy := [false, true],
          width := [0, 0], height := [0, 0] } : Stack).allocate 0 0 W H
            ⟨0, 0, 0, 0⟩).stack.width[1]? = some (W - P)) := by
  refine ⟨?_, ?_, ?_⟩
  · intro s x y W H d i hor h1 h2 h3 hi hn
    have hne : ¬ s.controls.length = 0 := by
      intro h0
      have : s.stretchy = [] := by
        have := h1.trans h0
        simpa using List.eq_nil_of_length_eq_zero this
      rw [this] at hi
      simp at hi
    obtain ⟨hcw, hch, hn', hlw, hlh⟩ := pass1_cw s.orientation
      { d with xmargin := 0, ymargin := 0 }
      (W - d.xmargin * 2 - ((s.controls.length : Int) - 1) * d.xpadding)
      (H - d.ymargin * 2) s.controls s.stretchy s.width s.height h1 h2 h3
    rw [hor] at hcw hch hn' hlw hlh
    simp only [if_pos rfl] at hcw hch
    simp [Stack.allocate, stackWH, insetW, insetH, if_neg hne, hor]
    rw [hcw, hch, hn']
    simp only [hn, not_false_iff, true_and, sub_zero, if_true]
    constructor
    · exact (pass2_get_stretchy _ _ s.stretchy _ _ i (hlw.trans h1.symm)
        (hlh.trans h1.symm) hi).1
    · exact (pass2_get_stretchy _ _ s.stretchy _ _ i (hlw.trans h1.symm)
        (hlh.trans h1.symm) hi).2
  · intro s x y W H d i hver h1 h2 h3 hi hn
    have hne : ¬ s.controls.length = 0 := by
      intro h0
      have : s.stretchy = [] := by
        have := h1.trans h0
        simpa using List.eq_nil_of_length_eq_zero this
      rw [this] at hi
      simp at hi
    have hvh : ¬ (vertical = horizontal) := by simp [vertical, horizontal]
    obtain ⟨hcw, hch, hn', hlw, hlh⟩ := pass1_cw s.orientation
      { d with xmargin := 0, ymargin := 0 }
      (W - d.xmargin * 2)
      (H - d.ymargin * 2 - ((s.controls.length : Int) - 1) * d.ypadding)
      s.controls s.stretchy s.width s.height h1 h2 h3
    rw [hver] at hcw hch hn' hlw hlh
    simp only [if_neg hvh] at hcw hch
    simp [Stack.allocate, stackWH, insetW, insetH, if_neg hne, hver, hvh]
    rw [hcw, hch, hn']
    simp only [hn, not_false_iff, true_and, and_true, sub_zero, if_true, and_false,
      if_false]
    constructor
    · exact (pass2_get_stretchy _ _ s.stretchy _ _ i (hlw.trans h1.symm)
        (hlh.trans h1.symm) hi).1
    · exact (pass2_get_stretchy _ _ s.stretchy _ _ i (hlw.trans h1.symm)
        (hlh.trans h1.symm) hi).2
  · intro W P H
    simp [Stack.allocate, stackWH, insetW, insetH, pass1, pass2, place, flushPend,
      finalPend, mkCtrl, horizontal, Int.tdiv_one]

/-- A two-control vertical Stack, the second control stretchy, used to
witness the stretchy division on the vertical primary axis: nonstretchy
preferred height 30. -/
def stackC1v : Stack :=
  { created := false, orientation := vertical
    controls := [mkCtrl 1 5 30, mkCtrl 2 5 0], stretchy := [false, true]
    width := [0, 0], height := [0, 0] }

/-- Witness for C1 at concrete inputs: horizontally, offered (0, 0, 100, 40)
with margins (2, 3) and x padding 1, the stretchy control gets width
(100 - 4 - 1 - 30) / 1 = 65 and height 40 - 6 = 34; vertically, offered
(0, 0, 40, 100) with margins (3, 2) and y padding 1, it gets height
(100 - 4 - 1 - 30) / 1 = 65 and width 40 - 6 = 34. -/
theorem C1_stretchy_witness :
    (((stackC1.allocate 0 0 100 40 ⟨2, 3, 1, 4⟩).stack.width)[1]? = some 65 ∧
      ((stackC1.allocate 0 0 100 40 ⟨2, 3, 1, 4⟩).stack.height)[1]? = some 34) ∧
    (((stackC1v.allocate 0 0 40 100 ⟨3, 2, 4, 1⟩).stack.height)[1]? = some 65 ∧
      ((stackC1v.allocate 0 0 40 100 ⟨3, 2, 4, 1⟩).stack.width)[1]? = some 34) := by
  constructor
  · have h := (C1_stretchy_division).1 stackC1 0 0 100 40 ⟨2, 3, 1, 4⟩ 1 rfl
      (by simp [stackC1]) (by simp [stackC1]) (by simp [stackC1]) (by decide) (by decide)
    constructor
    · rw [h.1]
      decide
    · rw [h.2]
      decide
  · have h := (C1_stretchy_division).2.1 stackC1v 0 0 40 100 ⟨3, 2, 4, 1⟩ 1 rfl
      (by simp [stackC1v]) (by simp [stackC1v]) (by simp [stackC1v]) (by decide)
      (by decide)
    constructor
    · rw [h.2]
      decide
    · rw [h.1]
      decide

/-- An all-zero sizing context: no margins, no padding. -/
def dzero : sysSizeData := ⟨0, 0, 0, 0⟩

/-- The three-control horizontal Stack of testable property 3: preferred
widths 10, 20, 30 and heights h1, h2, h3, no stretchy flags. -/
def stackC8 (h1 h2 h3 : Int) : Stack :=
  newStack horizontal [mkCtrl 1 10 h1, mkCtrl 2 20 h2, mkCtrl 3 30 h3]

/-- C8: the placement pass walks controls in order, allocating each at the
running cursor and advancing the cursor by the control's extent plus one
padding unit; for the horizontal Stack with preferred widths [10, 20, 30],
no stretchy flags and zero margin/padding, preferredSize is
(60, max of the heights) and allocate (0, 0, 60, H) hands the controls
x-offsets 0, 10, 30, widths 10, 20, 30, and height H each. -/
theorem C8_placement_cursor (H h1 h2 h3 : Int)
    (n1 : 0 ≤ h1) (n2 : 0 ≤ h2) (n3 : 0 ≤ h3) :
    (stackC8 h1 h2 h3).preferredSize dzero = (60, max h1 (max h2 h3)) ∧
    ((stackC8 h1 h2 h3).allocate 0 0 60 H dzero).allocs
      = [⟨0, 0, 10, H, 1, some 2⟩, ⟨10, 0, 20, H, 2, some 3⟩,
         ⟨30, 0, 30, H, 3, none⟩] := by
  constructor
  · simp [stackC8, dzero, newStack, mkCtrl, Stack.preferredSize, prefLoop, horizontal]
    omega
  · simp [stackC8, dzero, newStack, mkCtrl, Stack.allocate, stackWH, insetW, insetH,
      pass1, pass2, place, flushPend, finalPend, horizontal]

/-- Witness for C8 at concrete inputs: heights 7, 9, 8 and offered height 50. -/
theorem C8_placement_witness :
    (stackC8 7 9 8).preferredSize dzero = (60, 9) ∧
    ((stackC8 7 9 8).allocate 0 0 60 50 dzero).allocs
      = [⟨0, 0, 10, 50, 1, some 2⟩, ⟨10, 0, 20, 50, 2, some 3⟩,
         ⟨30, 0, 30, 50, 3, none⟩] := by
  have h := C8_placement_cursor 50 7 9 8 (by decide) (by decide) (by decide)
  exact ⟨by rw [h.1]; decide, h.2⟩

/-- Maximum preferred width over all controls of a zipped controls/stretchy
sequence, folded from the Go zero value 0 (equal to the true maximum
whenever the preferred extents are nonnegative). -/
def maxAllW (d : sysSizeData) (l : List (Ctrl × Bool)) : Int :=
  l.foldr (fun p r => max (p.1.preferredSize d).1 r) 0

/-- Maximum preferred height over all controls, folded from 0. -/
def maxAllH (d : sysSizeData) (l : List (Ctrl × Bool)) : Int :=
  l.foldr (fun p r => max (p.1.preferredSize d).2 r) 0

/-- Maximum preferred width among the stretchy controls, folded from 0. -/
def maxStretchyW (d : sysSizeData) (l : List (Ctrl × Bool)) : Int :=
  l.foldr (fun p r => if p.2 then max (p.1.preferredSize d).1 r else r) 0

/-- Maximum preferred height among the stretchy controls, folded from 0. -/
def maxStretchyH (d : sysSizeData) (l : List (Ctrl × Bool)) : Int :=
  l.foldr (fun p r => if p.2 then max (p.1.preferredSize d).2 r else r) 0

theorem maxAllW_nonneg (d : sysSizeData) (l : List (Ctrl × Bool)) :
    0 ≤ maxAllW d l := by
  induction l with
  | nil => simp [maxAllW]
  | cons p l ih => simp only [maxAllW, List.foldr] at ih ⊢; omega

theorem maxAllH_nonneg (d : sysSizeData) (l : List (Ctrl × Bool)) :
    0 ≤ maxAllH d l := by
  induction l with
  | nil => simp [maxAllH]
  | cons p l ih => simp only [maxAllH, List.foldr] at ih ⊢; omega

theorem maxStretchyW_nonneg (d : sysSizeData) (l : List (Ctrl × Bool)) :
    0 ≤ maxStretchyW d l := by
  induction l with
  | nil => simp [maxStretchyW]
  | cons p l ih =>
    simp only [maxStretchyW, List.foldr] at ih ⊢
    by_cases hp : p.2 = true <;> simp [hp] <;> omega

theorem maxStretchyH_nonneg (d : sysSizeData) (l : List (Ctrl × Bool)) :
    0 ≤ maxStretchyH d l := by
  induction l with
  | nil => simp [maxStretchyH]
  | cons p l ih =>
    simp only [maxStretchyH, List.foldr] at ih ⊢
    by_cases hp : p.2 = true <;> simp [hp] <;> omega

theorem prefLoop_char (o : orientation) (d : sysSizeData) :
    ∀ (cs : List Ctrl) (sts : List Bool) (acc : PrefAcc),
    sts.length = cs.length →
    0 ≤ acc.msw → 0 ≤ acc.msh →
    (o = horizontal → 0 ≤ acc.height) →
    (¬ o = horizontal → 0 ≤ acc.width) →
    (prefLoop o d cs sts acc).width
      = (if o = horizontal then acc.width + sumNonStretchyW d (cs.zip sts)
         else max acc.width (maxAllW d (cs.zip sts))) ∧
    (prefLoop o d cs sts acc).height
      = (if o = horizontal then max acc.height (maxAllH d (cs.zip sts))
         else acc.height + sumNonStretchyH d (cs.zip sts)) ∧
    (prefLoop o d cs sts acc).n = acc.n + countStretchy sts ∧
    (prefLoop o d cs sts acc).msw = max acc.msw (maxStretchyW d (cs.zip sts)) ∧
    (prefLoop o d cs sts acc).msh = max acc.msh (maxStretchyH d (cs.zip sts)) := by
  intro cs
  induction cs with
  | nil =>
    intro sts acc hlen hmw hmh hhgt hwd
    simp at hlen
    subst hlen
    by_cases hz : o = horizontal
    · have := hhgt hz
      simp [prefLoop, hz, sumNonStretchyW, sumNonStretchyH, maxAllW, maxAllH,
        maxStretchyW, maxStretchyH, countStretchy]
      omega
    · have := hwd hz
      simp [prefLoop, hz, sumNonStretchyW, sumNonStretchyH, maxAllW, maxAllH,
        maxStretchyW, maxStretchyH, countStretchy]
      omega
  | cons c cs ih =>
    intro sts acc hlen hmw hmh hhgt hwd
    match sts with
    | st :: sts =>
      simp at hlen
      simp only [prefLoop]
      have h := ih sts
        { width := if o = horizontal then
              (if st then acc.width else acc.width + (c.preferredSize d).1)
            else max acc.width (c.preferredSize d).1
          height := if o = horizontal then max acc.height (c.preferredSize d).2
            else (if st then acc.height else acc.height + (c.preferredSize d).2)
          n := if st then acc.n + 1 else acc.n
          msw := if st then max acc.msw (c.preferredSize d).1 else acc.msw
          msh := if st then max acc.msh (c.preferredSize d).2 else acc.msh }
        hlen ?_ ?_ ?_ ?_
      refine ⟨?_, ?_, ?_, ?_, ?_⟩
      · rw [h.1]
        by_cases hz : o = horizontal <;>
          by_cases hst : st = true <;>
          simp [hz, hst, sumNonStretchyW, maxAllW] <;> omega
      · rw [h.2.1]
        by_cases hz : o = horizontal <;>
          by_cases hst : st = true <;>
          simp [hz, hst, sumNonStretchyH, maxAllH] <;> omega
      · rw [h.2.2.1]
        by_cases hst : st = true <;> simp [hst, countStretchy] <;> omega
      · rw [h.2.2.2.1]
        by_cases hst : st = true <;>
          by_cases hz : o = horizontal <;>
          simp [hst, hz, maxStretchyW] <;> omega
      · rw [h.2.2.2.2]
        by_cases hst : st = true <;>
          by_cases hz : o = horizontal <;>
          simp [hst, hz, maxStretchyH] <;> omega
      · by_cases hst : st = true <;> by_cases hz : o = horizontal <;>
          simp [hst, hz] <;> omega
      · by_cases hst : st = true <;> by_cases hz : o = horizontal <;>
          simp [hst, hz] <;> omega
      · intro hz
        have := hhgt hz
        by_cases hst : st = true <;> simp [hst, hz] <;> omega
      · intro hz
        have := hwd hz
        by_cases hst : st = true <;> simp [hst, hz] <;> omega

/-- C2: for a nonempty Stack, preferredSize is, on the primary axis,
(N-1)*padding plus the sum of the nonstretchy controls' preferred primary
extents plus (number of stretchy controls) times the maximum preferred
primary extent among the stretchy controls, and on the cross axis the
maximum preferred cross extent over all controls (the maxima are folded
from Go's zero value 0, which is the plain maximum whenever the children's
preferred extents are nonnegative). -/
theorem C2_preferredSize_formula (s : Stack) (d : sysSizeData)
    (h1 : s.stretchy.length = s.controls.length) (hne : s.controls ≠ []) :
    (s.orientation = horizontal →
      s.preferredSize d
        = (((s.controls.length : Int) - 1) * d.xpadding
            + sumNonStretchyW d (s.controls.zip s.stretchy)
            + (countStretchy s.stretchy : Int)
                * maxStretchyW d (s.controls.zip s.stretchy),
           maxAllH d (s.controls.zip s.stretchy))) ∧
    (s.orientation = vertical →
      s.preferredSize d
        = (maxAllW d (s.controls.zip s.stretchy),
           ((s.controls.length : Int) - 1) * d.ypadding
            + sumNonStretchyH d (s.controls.zip s.stretchy)
            + (countStretchy s.stretchy : Int)
                * maxStretchyH d (s.controls.zip s.stretchy))) := by
  have hlen : ¬ s.controls.length = 0 := by
    simpa using fun h => hne (List.eq_nil_of_length_eq_zero h)
  constructor
  · intro hor
    obtain ⟨hw, hh, hcn, hmsw, hmsh⟩ := prefLoop_char horizontal d s.controls
      s.stretchy
      { width := ((s.controls.length : Int) - 1) * d.xpadding
        height := 0, n := 0, msw := 0, msh := 0 } h1 le_rfl le_rfl
      (fun _ => le_rfl) (fun hc => absurd rfl hc)
    simp at hw hh
    simp [Stack.preferredSize, if_neg hlen, hor]
    rw [hw, hh, hcn, hmsw]
    rw [max_eq_right (maxStretchyW_nonneg d (s.controls.zip s.stretchy)),
      max_eq_right (maxAllH_nonneg d (s.controls.zip s.stretchy))]
    simp
  · intro hver
    obtain ⟨hw, hh, hcn, hmsw, hmsh⟩ := prefLoop_char vertical d s.controls
      s.stretchy
      { width := 0
        height := ((s.controls.length : Int) - 1) * d.ypadding
        n := 0, msw := 0, msh := 0 } h1 le_rfl le_rfl
      (fun hc => by simp [vertical, horizontal] at hc) (fun _ => le_rfl)
    simp [vertical, horizontal] at hw hh
    simp [Stack.preferredSize, if_neg hlen, hver, vertical, horizontal]
    simp only [vertical, horizontal] at hcn hmsw hmsh
    rw [hw, hh, hcn, hmsh]
    rw [max_eq_right (maxAllW_nonneg d (s.controls.zip s.stretchy)),
      max_eq_right (maxStretchyH_nonneg d (s.controls.zip s.stretchy))]
    simp

/-- Witness for C2 at concrete inputs: a horizontal Stack with a nonstretchy
control of preferred size (10, 7) and a stretchy one of preferred size
(40, 9), padding 3: preferred size is (3 + 10 + 1*40, 9) = (53, 9). -/
theorem C2_preferredSize_witness :
    ({ created := false, orientation := horizontal,
       controls := [mkCtrl 1 10 7, mkCtrl 2 40 9], stretchy := [false, true],
       width := [0, 0], height := [0, 0] } : Stack).preferredSize ⟨0, 0, 3, 5⟩
      = (53, 9) := by
  have h := (C2_preferredSize_formula
    ({ created := false, orientation := horizontal,
       controls := [mkCtrl 1 10 7, mkCtrl 2 40 9], stretchy := [false, true],
       width := [0, 0], height := [0, 0] } : Stack) ⟨0, 0, 3, 5⟩
    (by simp) (by simp)).1 rfl
  rw [h]
  simp [sumNonStretchyW, maxStretchyW, maxAllH, countStretchy, mkCtrl]

theorem pass2_pass1_indep (o : orientation) (d : sysSizeData)
    (fW fH sw sh : Int) :
    ∀ (cs : List Ctrl) (sts : List Bool) (ws1 hs1 ws2 hs2 : List Int),
    sts.length = cs.length → ws1.length = cs.length → hs1.length = cs.length →
    ws2.length = cs.length → hs2.length = cs.length →
    pass2 sw sh sts (pass1 o d fW fH cs sts ws1 hs1).ws
        (pass1 o d fW fH cs sts ws1 hs1).hs
      = pass2 sw sh sts (pass1 o d fW fH cs sts ws2 hs2).ws
        (pass1 o d fW fH cs sts ws2 hs2).hs := by
  intro cs
  induction cs with
  | nil => intro sts ws1 hs1 ws2 hs2 _ _ _ _ _; rfl
  | cons c cs ih =>
    intro sts ws1 hs1 ws2 hs2 g1 g2 g3 g4 g5
    match sts, ws1, hs1, ws2, hs2 with
    | st :: sts, a1 :: ws1, b1 :: hs1, a2 :: ws2, b2 :: hs2 =>
      simp at g1 g2 g3 g4 g5
      have h := ih sts ws1 hs1 ws2 hs2 g1 g2 g3 g4 g5
      by_cases hst : st = true
      · simp [pass1, pass2, hst, h]
      · by_cases hz : o = horizontal
        · subst hz
          simp [pass1, pass2, hst, h]
        · simp [pass1, pass2, hst, hz, h]

theorem stackWH_length (s : Stack) (d2 : sysSizeData) (w3 h3 : Int)
    (h1 : s.stretchy.length = s.controls.length)
    (h2l : s.width.length = s.controls.length)
    (h3l : s.height.length = s.controls.length) :
    (stackWH s d2 w3 h3).1.length = s.controls.length ∧
    (stackWH s d2 w3 h3).2.length = s.controls.length := by
  obtain ⟨_, _, _, hl1, hl2⟩ := pass1_cw s.orientation d2 w3 h3 s.controls
    s.stretchy s.width s.height h1 h2l h3l
  have := pass2_length
    (if (pass1 s.orientation d2 w3 h3 s.controls s.stretchy s.width s.height).n ≠ 0
        ∧ s.orientation = horizontal then
      (w3 - (pass1 s.orientation d2 w3 h3 s.controls s.stretchy s.width s.height).cw).tdiv
        ((pass1 s.orientation d2 w3 h3 s.controls s.stretchy s.width s.height).n : Int)
    else w3 - (pass1 s.orientation d2 w3 h3 s.controls s.stretchy s.width s.height).cw)
    (if (pass1 s.orientation d2 w3 h3 s.controls s.stretchy s.width s.height).n ≠ 0
        ∧ ¬ s.orientation = horizontal then
      (h3 - (pass1 s.orientation d2 w3 h3 s.controls s.stretchy s.width s.height).ch).tdiv
        ((pass1 s.orientation d2 w3 h3 s.controls s.stretchy s.width s.height).n : Int)
    else h3 - (pass1 s.orientation d2 w3 h3 s.controls s.stretchy s.width s.height).ch)
    s.stretchy
    (pass1 s.orientation d2 w3 h3 s.controls s.stretchy s.width s.height).ws
    (pass1 s.orientation d2 w3 h3 s.controls s.stretchy s.width s.height).hs
    (hl1.trans h1.symm) (hl2.trans h1.symm)
  simp only [stackWH]
  exact ⟨this.1.trans h1, this.2.trans h1⟩

/-- Updating only the width/height caches does not change the inset width
(it reads only orientation and the control count). -/
theorem insetW_update (s : Stack) (a b : List Int) (d : sysSizeData) (w : Int) :
    insetW { s with width := a, height := b } d w = insetW s d w := rfl

/-- Updating only the width/height caches does not change the inset height. -/
theorem insetH_update (s : Stack) (a b : List Int) (d : sysSizeData) (h : Int) :
    insetH { s with width := a, height := b } d h = insetH s d h := rfl

/-- The resolved extents of passes 1 and 2 do not depend on the stale
contents of the width/height caches: pass 1 reads a cache entry only to
carry it for a stretchy control, and pass 2 overwrites exactly those
entries. -/
theorem stackWH_indep (s : Stack) (d2 : sysSizeData) (w3 h3 : Int)
    (ws hs : List Int)
    (h1 : s.stretchy.length = s.controls.length)
    (h2 : s.width.length = s.controls.length)
    (h3l : s.height.length = s.controls.length)
    (h4 : ws.length = s.controls.length)
    (h5 : hs.length = s.controls.length) :
    stackWH { s with width := ws, height := hs } d2 w3 h3 = stackWH s d2 w3 h3 := by
  obtain ⟨hcw1, hch1, hn1, _, _⟩ := pass1_cw s.orientation d2 w3 h3 s.controls
    s.stretchy ws hs h1 h4 h5
  obtain ⟨hcw2, hch2, hn2, _, _⟩ := pass1_cw s.orientation d2 w3 h3 s.controls
    s.stretchy s.width s.height h1 h2 h3l
  simp only [stackWH]
  rw [hcw1, hch1, hn1, hcw2, hch2, hn2]
  exact pass2_pass1_indep s.orientation d2 w3 h3 _ _ s.controls s.stretchy
    ws hs s.width s.height h1 h4 h5 h2 h3l

/-- C9: with fresh but identically-valued inputs, a second allocate on the
Stack state left by a first allocate returns the identical result (the only
state allocate writes, the width/height caches, is fully overwritten before
being read), allocate leaves controls, stretchy, orientation and created
untouched, and the preferredSize of the post-allocate Stack equals that of
the original (preferredSize reads no caches and writes nothing, so it is
embedded as a pure function). -/
theorem C9_layout_idempotent (s : Stack) (x y w h : Int) (d : sysSizeData)
    (h1 : s.stretchy.length = s.controls.length)
    (h2 : s.width.length = s.controls.length)
    (h3 : s.height.length = s.controls.length) :
    (s.allocate x y w h d).stack.allocate x y w h d = s.allocate x y w h d ∧
    (s.allocate x y w h d).stack.controls = s.controls ∧
    (s.allocate x y w h d).stack.stretchy = s.stretchy ∧
    (s.allocate x y w h d).stack.orientation = s.orientation ∧
    (s.allocate x y w h d).stack.created = s.created ∧
    (s.allocate x y w h d).stack.preferredSize d = s.preferredSize d := by
  by_cases hemp : s.controls.length = 0
  · simp [Stack.allocate, hemp]
  · have hwhlen := stackWH_length s { d with xmargin := 0, ymargin := 0 }
      (insetW s d w) (insetH s d h) h1 h2 h3
    have hind := stackWH_indep s { d with xmargin := 0, ymargin := 0 }
      (insetW s d w) (insetH s d h)
      (stackWH s { d with xmargin := 0, ymargin := 0 } (insetW s d w) (insetH s d h)).1
      (stackWH s { d with xmargin := 0, ymargin := 0 } (insetW s d w) (insetH s d h)).2
      h1 h2 h3 hwhlen.1 hwhlen.2
    refine ⟨?_, ?_, ?_, ?_, ?_, ?_⟩
    · simp only [Stack.allocate, if_neg hemp, insetW_update, insetH_update]
      rw [hind]
    · simp [Stack.allocate, hemp]
    · simp [Stack.allocate, hemp]
    · simp [Stack.allocate, hemp]
    · simp [Stack.allocate, hemp]
    · simp [Stack.allocate, hemp, Stack.preferredSize]

/-- Witness for C9 at concrete inputs: the three-control Stack of C8 with
nonzero margins and paddings. -/
theorem C9_layout_witness :
    ((stackC8 7 9 8).allocate 2 3 90 40 ⟨1, 2, 3, 4⟩).stack.allocate 2 3 90 40 ⟨1, 2, 3, 4⟩
      = (stackC8 7 9 8).allocate 2 3 90 40 ⟨1, 2, 3, 4⟩ ∧
    ((stackC8 7 9 8).allocate 2 3 90 40 ⟨1, 2, 3, 4⟩).stack.preferredSize ⟨1, 2, 3, 4⟩
      = (stackC8 7 9 8).preferredSize ⟨1, 2, 3, 4⟩ := by
  have h := C9_layout_idempotent (stackC8 7 9 8) 2 3 90 40 ⟨1, 2, 3, 4⟩
    (by simp [stackC8, newStack]) (by simp [stackC8, newStack])
    (by simp [stackC8, newStack])
  exact ⟨h.1, h.2.2.2.2.2⟩

/-- Specification-side description of the placement pass of a vertical
Stack: the children's allocations are concatenated in order, exactly as the
children produced them (no neighbor field is ever written), the cursor
advancing by height plus one padding unit. -/
def vertConcat (d : sysSizeData) :
    List Ctrl → List Int → List Int → Int → Int → List allocation
  | c :: cs, w :: ws, h :: hs, x, y =>
    c.allocate x y w h d ++ vertConcat d cs ws hs x (y + h + d.ypadding)
  | _, _, _, _, _ => []

/-- Specification-side description of the placement pass of a horizontal
Stack: the children's allocation blocks are concatenated in order, the
cursor advancing by width plus one padding unit, and whenever a child
produced at least one allocation and another child follows it, the head of
its block has its neighbor field overwritten with the id of the immediately
following Control, whether or not that control produces any allocations. -/
def horizChain (d : sysSizeData) :
    List Ctrl → List Int → List Int → Int → Int → List allocation
  | c :: cs, w :: ws, h :: hs, x, y =>
    (match c.allocate x y w h d, cs with
     | a :: tl, c2 :: _ => { a with neighbor := some c2.id } :: tl
     | as, _ => as) ++ horizChain d cs ws hs (x + w + d.xpadding) y
  | _, _, _, _, _ => []

theorem place_vert (d : sysSizeData) :
    ∀ (cs : List Ctrl) (ws hs : List Int) (x y : Int) (done : List allocation),
    place vertical d cs ws hs x y done none
      = done ++ vertConcat d cs ws hs x y := by
  intro cs
  induction cs with
  | nil => intro ws hs x y done; simp [place, vertConcat, finalPend]
  | cons c cs ih =>
    intro ws hs x y done
    rcases ws with _ | ⟨w, ws⟩
    · simp [place, vertConcat, finalPend]
    rcases hs with _ | ⟨h, hs⟩
    · simp [place, vertConcat, finalPend]
    simp only [place, vertConcat]
    rw [if_neg (by simp [vertical, horizontal])]
    rw [ih]
    simp

theorem place_horiz (d : sysSizeData) :
    ∀ (cs : List Ctrl) (ws hs : List Int) (x y : Int) (done : List allocation)
      (pend : Option (allocation × List allocation)),
    ws.length = cs.length → hs.length = cs.length →
    place horizontal d cs ws hs x y done pend
      = done ++ (match pend, cs with
          | some (a, r), c :: _ => { a with neighbor := some c.id } :: r
          | some (a, r), [] => a :: r
          | none, _ => ([] : List allocation)) ++ horizChain d cs ws hs x y := by
  intro cs
  induction cs with
  | nil =>
    intro ws hs x y done pend hw hh
    rcases pend with _ | ⟨a, r⟩ <;> simp [place, horizChain, finalPend]
  | cons c cs ih =>
    intro ws hs x y done pend hw hh
    match ws, hs with
    | w :: ws, h :: hs =>
      simp at hw hh
      simp only [place, eq_self_iff_true, if_true]
      rw [ih ws hs _ _ _ _ hw hh]
      rcases pend with _ | ⟨a, r⟩ <;>
        rcases has : c.allocate x y w h d with _ | ⟨a2, tl⟩ <;>
        rcases cs with _ | ⟨c2, cs'⟩ <;>
        simp [flushPend, finalPend, horizChain, has]

/-- A two-control horizontal Stack whose second child is the shared Space
value (it produces no allocations). -/
def stackAE : Stack :=
  newStack horizontal [mkCtrl 1 10 5, spaceCtrl 2]

/-- A three-control horizontal Stack whose middle child is the shared Space
value: the Space breaks the neighbor chain. -/
def stackGap : Stack :=
  newStack horizontal [mkCtrl 1 10 5, spaceCtrl 2, mkCtrl 3 30 6]

/-- A two-control vertical Stack of plain leaf controls. -/
def stackVert : Stack :=
  newStack vertical [mkCtrl 1 10 5, mkCtrl 2 20 6]

/-- No allocation produced by the horizontal placement carries K as its
written neighbor, provided no child's own allocations carry K and every
control whose immediate successor has id K produces no allocations: the
placement writes a neighbor only into the head of a nonempty block, and
only the id of the immediately following control. -/
theorem horizChain_no_link (d : sysSizeData) (K : Nat) :
    ∀ (cs : List Ctrl) (ws hs : List Int) (x y : Int),
    (∀ c ∈ cs, ∀ (x' y' w' h' : Int), ∀ a ∈ c.allocate x' y' w' h' d,
        a.neighbor ≠ some K) →
    (∀ (p : Nat) (cp cq : Ctrl), cs[p]? = some cp → cs[p + 1]? = some cq →
        cq.id = K → ∀ (x' y' w' h' : Int), cp.allocate x' y' w' h' d = []) →
    ∀ a ∈ horizChain d cs ws hs x y, a.neighbor ≠ some K := by
  intro cs
  induction cs with
  | nil =>
    intro ws hs x y _ _ a ha
    simp [horizChain] at ha
  | cons c cs ih =>
    intro ws hs x y hown hpair a ha
    rcases ws with _ | ⟨w, ws⟩
    · simp [horizChain] at ha
    rcases hs with _ | ⟨h, hs⟩
    · simp [horizChain] at ha
    have hasplit := List.mem_append.1 (by simpa only [horizChain] using ha)
    rcases hasplit with hblock | hrest
    · rcases has : c.allocate x y w h d with _ | ⟨a0, tl⟩
      · rcases cs with _ | ⟨c2, cs2⟩ <;> rw [has] at hblock <;> simp at hblock
      · rcases cs with _ | ⟨c2, cs2⟩
        · rw [has] at hblock
          simp only at hblock
          exact hown c (by simp) x y w h a (has ▸ hblock)
        · rw [has] at hblock
          simp only at hblock
          rcases List.mem_cons.1 hblock with hhead | htl
          · subst hhead
            intro hKe
            have hKe2 : c2.id = K := by simpa using hKe
            have hempty := hpair 0 c c2 (by simp) (by simp) hKe2 x y w h
            rw [has] at hempty
            exact List.noConfusion hempty
          · exact hown c (by simp) x y w h a
              (has ▸ List.mem_cons_of_mem _ htl)
    · exact ih ws hs _ _
        (fun c2 hc2 x2 y2 w2 h2 a2 ha2 =>
          hown c2 (List.mem_cons_of_mem _ hc2) x2 y2 w2 h2 a2 ha2)
        (fun p cp cq hp hq hKe =>
          hpair (p + 1) cp cq (by simpa using hp) (by simpa using hq) hKe)
        a hrest

/-- C6: vertical Stacks never write any allocation's neighbor field — their
allocate output is exactly the untouched concatenation of the children's
allocations (vertConcat) — and in every horizontal Stack a child that
produces no allocations resets the tracked allocation, so no allocation
from before the gap receives a link past it: whenever the child right
before cj produces no allocations, no allocation in the whole output has
its neighbor set to cj's id (ids model Go object identity, so the side
conditions ask that cj's id is not another child's and does not occur in
the children's own outputs); the concrete [leaf, Space, leaf] Stack shows
the first leaf keeping neighbor = the Space's id 2 while nothing carries
the id 3 of the control after the gap. -/
theorem C6_vertical_no_neighbor_and_gap_breaks_chain :
    (∀ (s : Stack) (x y w h : Int) (d : sysSizeData),
      s.orientation = vertical →
      (s.allocate x y w h d).allocs
        = vertConcat { d with xmargin := 0, ymargin := 0 } s.controls
            (s.allocate x y w h d).stack.width
            (s.allocate x y w h d).stack.height
            (x + d.xmargin) (y + d.ymargin)) ∧
    (∀ (s : Stack) (x y w h : Int) (d : sysSizeData) (i : Nat) (cgap cj : Ctrl),
      s.orientation = horizontal →
      s.stretchy.length = s.controls.length →
      s.width.length = s.controls.length →
      s.height.length = s.controls.length →
      s.controls[i]? = some cgap →
      s.controls[i + 1]? = some cj →
      (∀ (x2 y2 w2 h2 : Int),
        cgap.allocate x2 y2 w2 h2 { d with xmargin := 0, ymargin := 0 } = []) →
      (∀ c ∈ s.controls, ∀ (x2 y2 w2 h2 : Int),
        ∀ a ∈ c.allocate x2 y2 w2 h2 { d with xmargin := 0, ymargin := 0 },
          a.neighbor ≠ some cj.id) →
      (∀ (p : Nat) (cp : Ctrl), s.controls[p]? = some cp → p ≠ i + 1 →
          cp.id ≠ cj.id) →
      ∀ a ∈ (s.allocate x y w h d).allocs, a.neighbor ≠ some cj.id) ∧
    ((stackGap.allocate 0 0 100 50 dzero).allocs
        = [⟨0, 0, 10, 50, 1, some 2⟩, ⟨10, 0, 30, 50, 3, none⟩] ∧
      ∀ a ∈ (stackGap.allocate 0 0 100 50 dzero).allocs, a.neighbor ≠ some 3) := by
  refine ⟨?_, ?_, ?_⟩
  · intro s x y w h d hver
    by_cases hemp : s.controls.length = 0
    · have : s.controls = [] := List.eq_nil_of_length_eq_zero hemp
      simp [Stack.allocate, hemp, this, vertConcat]
    · simp only [Stack.allocate, if_neg hemp, hver]
      exact place_vert _ s.controls _ _ _ _ []
  · intro s x y w h d i cgap cj hor h1 h2 h3 hgi hgj hempty hown hid a ha
    have hne : ¬ s.controls.length = 0 := by
      intro h0
      rw [List.eq_nil_of_length_eq_zero h0] at hgj
      simp at hgj
    have hlen := stackWH_length s { d with xmargin := 0, ymargin := 0 }
      (insetW s d w) (insetH s d h) h1 h2 h3
    have hall : (s.allocate x y w h d).allocs
        = horizChain { d with xmargin := 0, ymargin := 0 } s.controls
            (s.allocate x y w h d).stack.width
            (s.allocate x y w h d).stack.height
            (x + d.xmargin) (y + d.ymargin) := by
      simp only [Stack.allocate, if_neg hne, hor]
      exact place_horiz _ s.controls _ _ _ _ [] none hlen.1 hlen.2
    rw [hall] at ha
    have hpair : ∀ (p : Nat) (cp cq : Ctrl), s.controls[p]? = some cp →
        s.controls[p + 1]? = some cq → cq.id = cj.id →
        ∀ (x2 y2 w2 h2 : Int),
          cp.allocate x2 y2 w2 h2 { d with xmargin := 0, ymargin := 0 } = [] := by
      intro p cp cq hp hq hKe x2 y2 w2 h2
      have hp1 : p + 1 = i + 1 := by
        by_contra hne2
        exact hid (p + 1) cq hq hne2 hKe
      have hpi : p = i := by omega
      subst hpi
      have hcc : some cgap = some cp := hgi.symm.trans hp
      have hcc2 : cgap = cp := by injection hcc
      rw [← hcc2]
      exact hempty x2 y2 w2 h2
    exact horizChain_no_link { d with xmargin := 0, ymargin := 0 } cj.id
      s.controls _ _ _ _ hown hpair a ha
  · constructor
    · decide
    · decide

/-- Witness for C6 at concrete inputs: a two-control vertical Stack whose
allocations are exactly the children's own with no neighbor set, and the
[leaf, Space, leaf] horizontal Stack where the general gap theorem applies
with the gap at index 1, so nothing links to the id 3 of the control after
the Space. -/
theorem C6_vertical_witness :
    ((stackVert.allocate 0 0 100 50 dzero).allocs
      = vertConcat { dzero with xmargin := 0, ymargin := 0 } stackVert.controls
          (stackVert.allocate 0 0 100 50 dzero).stack.width
          (stackVert.allocate 0 0 100 50 dzero).stack.height
          (0 + dzero.xmargin) (0 + dzero.ymargin) ∧
    (stackVert.allocate 0 0 100 50 dzero).allocs
      = [⟨0, 0, 100, 5, 1, none⟩, ⟨0, 5, 100, 6, 2, none⟩]) ∧
    (∀ a ∈ (stackGap.allocate 0 0 100 50 dzero).allocs,
      a.neighbor ≠ some (mkCtrl 3 30 6).id) := by
  refine ⟨⟨?_, ?_⟩, ?_⟩
  · exact (C6_vertical_no_neighbor_and_gap_breaks_chain).1 stackVert 0 0 100 50 dzero rfl
  · decide
  · refine (C6_vertical_no_neighbor_and_gap_breaks_chain).2.1 stackGap 0 0 100 50 dzero
      1 (spaceCtrl 2) (mkCtrl 3 30 6) rfl (by simp [stackGap, newStack])
      (by simp [stackGap, newStack]) (by simp [stackGap, newStack]) rfl rfl
      (fun x2 y2 w2 h2 => rfl) ?_ ?_
    · intro c hc x2 y2 w2 h2 a ha
      simp [stackGap, newStack] at hc
      rcases hc with hc | hc | hc
      · subst hc
        simp [mkCtrl] at ha
        subst ha
        simp
      · subst hc
        simp [spaceCtrl, space, newStack, Stack.allocate] at ha
      · subst hc
        simp [mkCtrl] at ha
        subst ha
        simp
    · intro p cp hp hne2
      rcases p with _ | _ | _ | p
      · simp [stackGap, newStack] at hp
        rw [← hp]
        simp [mkCtrl]
      · simp [stackGap, newStack] at hp
        rw [← hp]
        simp [spaceCtrl, mkCtrl]
      · exact absurd rfl hne2
      · simp [stackGap, newStack] at hp

/-- C10: in a horizontal Stack, allocate's output is horizChain: whenever
child i produced at least one allocation and a child i+1 follows, the head
of child i's block is assigned neighbor = the id of child i+1's Control
itself — and this happens even when child i+1 produces no allocations, as
in the concrete [leaf, Space] Stack where the leaf's allocation still gets
the Space's id as neighbor. -/
theorem C10_neighbor_is_next_control :
    (∀ (s : Stack) (x y w h : Int) (d : sysSizeData),
      s.orientation = horizontal →
      s.stretchy.length = s.controls.length →
      s.width.length = s.controls.length →
      s.height.length = s.controls.length →
      (s.allocate x y w h d).allocs
        = horizChain { d with xmargin := 0, ymargin := 0 } s.controls
            (s.allocate x y w h d).stack.width
            (s.allocate x y w h d).stack.height
            (x + d.xmargin) (y + d.ymargin)) ∧
    ((stackAE.allocate 0 0 100 50 dzero).allocs = [⟨0, 0, 10, 50, 1, some 2⟩]) := by
  constructor
  · intro s x y w h d hor h1 h2 h3
    by_cases hemp : s.controls.length = 0
    · have : s.controls = [] := List.eq_nil_of_length_eq_zero hemp
      simp [Stack.allocate, hemp, this, horizChain]
    · have hlen := stackWH_length s { d with xmargin := 0, ymargin := 0 }
        (insetW s d w) (insetH s d h) h1 h2 h3
      simp only [Stack.allocate, if_neg hemp, hor]
      exact place_horiz _ s.controls _ _ _ _ [] none hlen.1 hlen.2
  · decide

/-- Witness for C10 at concrete inputs: the [leaf, leaf, leaf] Stack of C8;
each block head points at the next control, the last at nothing. -/
theorem C10_neighbor_witness :
    ((stackC8 7 9 8).allocate 0 0 60 50 dzero).allocs
      = horizChain { dzero with xmargin := 0, ymargin := 0 } (stackC8 7 9 8).controls
          ((stackC8 7 9 8).allocate 0 0 60 50 dzero).stack.width
          ((stackC8 7 9 8).allocate 0 0 60 50 dzero).stack.height
          (0 + dzero.xmargin) (0 + dzero.ymargin) :=
  (C10_neighbor_is_next_control).1 (stackC8 7 9 8) 0 0 60 50 dzero rfl
    (by simp [stackC8, newStack]) (by simp [stackC8, newStack])
    (by simp [stackC8, newStack])

/-- State of one submitter of the UI dispatch bridge (uitask_unix.go):
still blocked in the channel send uitask <- f, or past it (the send
completed and the submitter continues running). -/
inductive SubSt where
  | waiting : SubSt
  | unblocked : SubSt
deriving DecidableEq

/-- Global state of the bridge for a fixed family of units of work, one per
submitter: subs is each submitter's state, relay is the index of the unit
the relay goroutine has posted via gdk_threads_add_idle and is blocked on
reading done for (none when the relay sits at the top of its receive loop),
and exec records which units have been executed by the event-loop thread. -/
structure BState where
  subs : List SubSt
  relay : Option Nat
  exec : List Bool
deriving DecidableEq

/-- Initial bridge state: n submitters each blocked sending on the
unbuffered channel uitask, the relay receiving, nothing executed. -/
def initB (n : Nat) : BState :=
  { subs := List.replicate n .waiting
    relay := none
    exec := List.replicate n false }

/-- One step of the bridge of uitask_unix.go.  handoff: the unbuffered send
uitask <- f of unit k rendezvouses with the relay's receive (for f := range
uitask) — at that instant the sender unblocks and the relay holds unit k,
posting it to the idle machinery and blocking on the done channel.
complete: the idle callback runs unit k on the pinned event-loop thread and
signals done, after which the relay loops back to its receive. -/
inductive BStep : BState → BState → Prop where
  | handoff (st : BState) (k : Nat) :
      st.subs[k]? = some .waiting → st.relay = none →
      BStep st { subs := st.subs.set k .unblocked, relay := some k, exec := st.exec }
  | complete (st : BState) (k : Nat) :
      st.relay = some k →
      BStep st { subs := st.subs, relay := none, exec := st.exec.set k true }

/-- Reachability from the initial bridge state with n units. -/
inductive BReach (n : Nat) : BState → Prop where
  | init : BReach n (initB n)
  | step {s t : BState} : BReach n s → BStep s t → BReach n t

theorem bridge_reach1 :
    BReach 1 { subs := [.unblocked], relay := some 0, exec := [false] } := by
  have h1 : BStep (initB 1)
      { subs := [SubSt.unblocked], relay := some 0, exec := [false] } := by
    have h := BStep.handoff (initB 1) 0 (by decide) rfl
    simpa [initB] using h
  exact BReach.step BReach.init h1

/-- Counterexample for C3: the claim that a submitter stays blocked until
its unit of work has finished executing is false -- after the rendezvous
(one handoff step from the initial one-unit state) the submitter is already
unblocked while its unit has not yet run. -/
theorem C3_counterexample_blocked_until_done :
    ¬ (∀ (st : BState), BReach 1 st →
        ∀ (k : Nat), st.subs[k]? = some SubSt.unblocked →
          st.exec[k]? = some true) := by
  intro hcl
  have h := hcl { subs := [.unblocked], relay := some 0, exec := [false] }
    bridge_reach1 0 (by decide)
  exact absurd h (by decide)

/-- C3 (amended): a submitter stays blocked only until the relay accepts its
unit at the channel rendezvous -- which requires the relay to be free, hence
the previous unit to have completed -- and it unblocks before the unit
executes; in every reachable state a still-blocked submitter's unit has not
run, a unit in flight belongs to an already-unblocked submitter and has not
yet run, at most one unit is in flight, and a unit only ever executes after
its submitter was unblocked. -/
theorem C3_amended_rendezvous_serialization (n : Nat) (st : BState)
    (h : BReach n st) :
    (∀ (k : Nat), st.subs[k]? = some SubSt.waiting →
      st.exec[k]? = some false ∧ st.relay ≠ some k) ∧
    (∀ (k : Nat), st.relay = some k →
      st.subs[k]? = some SubSt.unblocked ∧ st.exec[k]? = some false) ∧
    (∀ (j k : Nat), st.relay = some j → st.relay = some k → j = k) ∧
    (∀ (k : Nat), st.exec[k]? = some true →
      st.subs[k]? = some SubSt.unblocked) := by
  induction h with
  | init =>
    refine ⟨?_, ?_, ?_, ?_⟩
    · intro k hk
      simp only [initB] at hk ⊢
      have hlt : k < n := by
        by_contra hge
        rw [List.getElem?_eq_none (by simpa using Nat.le_of_not_lt hge)] at hk
        exact Option.noConfusion hk
      constructor
      · rw [List.getElem?_eq_getElem (by simpa using hlt)]
        simp
      · simp
    · intro k hk
      simp [initB] at hk
    · intro j k hj hk
      simp [initB] at hj
    · intro k hk
      simp only [initB] at hk
      by_cases hlt : k < n
      · rw [List.getElem?_eq_getElem (by simpa using hlt)] at hk
        simp at hk
      · rw [List.getElem?_eq_none (by simpa using Nat.le_of_not_lt hlt)] at hk
        exact Option.noConfusion hk
  | step hr hstep ih =>
    obtain ⟨ih1, ih2, ih3, ih4⟩ := ih
    cases hstep with
    | handoff k0 hk0 hrel =>
      rename_i stp
      have hk0lt : k0 < stp.subs.length := by
        by_contra hge
        rw [List.getElem?_eq_none (Nat.le_of_not_lt hge)] at hk0
        exact Option.noConfusion hk0
      refine ⟨?_, ?_, ?_, ?_⟩
      · intro k hk
        simp only at hk ⊢
        by_cases hkk : k = k0
        · subst hkk
          rw [List.getElem?_set_self hk0lt] at hk
          exact absurd hk (by simp)
        · rw [List.getElem?_set_ne (fun hke => hkk hke.symm)] at hk
          refine ⟨(ih1 k hk).1, ?_⟩
          simp only [ne_eq, Option.some.injEq]
          intro hke
          exact hkk hke.symm
      · intro k hk
        simp only [Option.some.injEq] at hk
        subst hk
        constructor
        · exact List.getElem?_set_self hk0lt
        · exact (ih1 k0 hk0).1
      · intro j k hj hk
        simp only [Option.some.injEq] at hj hk
        omega
      · intro k hk
        simp only at hk ⊢
        by_cases hkk : k = k0
        · subst hkk
          exact List.getElem?_set_self hk0lt
        · rw [List.getElem?_set_ne (fun hke => hkk hke.symm)]
          exact ih4 k hk
    | complete k0 hrel =>
      refine ⟨?_, ?_, ?_, ?_⟩
      · intro k hk
        simp only at hk ⊢
        have h1 := ih1 k hk
        have hkk : ¬ k = k0 := by
          intro hke
          subst hke
          exact h1.2 hrel
        constructor
        · rw [List.getElem?_set_ne (fun hke => hkk hke.symm)]
          exact h1.1
        · simp
      · intro k hk
        simp at hk
      · intro j k hj hk
        simp at hj
      · intro k hk
        simp only at hk ⊢
        by_cases hkk : k = k0
        · subst hkk
          exact (ih2 k hrel).1
        · rw [List.getElem?_set_ne (fun hke => hkk hke.symm)] at hk
          exact ih4 k hk

/-- Witness for the amended C3 at a concrete reachable state: one handoff
into the one-unit bridge, where the unit is in flight, its submitter already
unblocked, and the unit not yet executed. -/
theorem C3_bridge_witness :
    ({ subs := [.unblocked], relay := some 0, exec := [false] } : BState).subs[0]?
        = some SubSt.unblocked ∧
    ({ subs := [.unblocked], relay := some 0, exec := [false] } : BState).exec[0]?
        = some false := by
  have h := C3_amended_rendezvous_serialization 1
    { subs := [.unblocked], relay := some 0, exec := [false] } bridge_reach1
  exact h.2.1 0 rfl

end Ui
